import Mathlib

set_option autoImplicit false

/-!
Verification of the oscar message-relay server's drop-box core.

The Go source is embedded shallowly: byte strings become `List Nat`, the
boltdb bucket holding drop-box packages becomes an association list, the
HTTP handlers become pure functions from request data and store to the
response status and the updated store, and the socket command loop becomes
a step function on the session's subscription set.  A boolean `writeOk`
argument stands for the success or failure of a `kvdb().Update`
transaction.

Helpers that the repository calls but whose bodies are not part of the
sources at hand are modelled from the specification:
* `sendBadReq` responds with HTTP status 400,
* `sendInternalErr` responds with HTTP status 500,
* `sendInvalidAccessToken` responds with HTTP status 401,
* `verifyAccessToken` returns user ID 0 for an unknown or missing token,
  a positive ID for a valid one, and an error on a store failure; it is
  passed as an explicit function argument below,
* `pubsub.Unsub` removes the subscription from the topic and closes its
  queue, which the consuming goroutine observes as a `nil` read.
-/

namespace Oscar

/-- A byte string: each entry is one byte value. -/
abbrev Bytes := List Nat

/-! ## `utils.go`: int64 serialisation -/

/-- Little-endian base-256 encoding of `n` into exactly `w` bytes,
mirroring what `binary.Write(buf, binary.LittleEndian, i)` produces. -/
def toBytesLE : Nat → Nat → Bytes
  | 0, _ => []
  | w + 1, n => n % 256 :: toBytesLE w (n / 256)

/-- Little-endian base-256 decoding, mirroring `binary.Read` with
`binary.LittleEndian`. -/
def fromBytesLE : Bytes → Nat
  | [] => 0
  | b :: bs => b + 256 * fromBytesLE bs

/-- `int64ToBytes` from `utils.go`: serialise an int64 as 8 little-endian
bytes of its two's-complement representation. -/
def int64ToBytes (i : Int) : Bytes :=
  toBytesLE 8 ((i % (2 : Int) ^ 64).toNat)

/-- `bytesToInt64` from `utils.go`: `binary.Read` fails — and the Go
function panics, modelled as `none` — when fewer than 8 bytes are
available; otherwise the first 8 bytes are decoded little-endian as a
two's-complement int64. -/
def bytesToInt64 (b : Bytes) : Option Int :=
  if b.length < 8 then none
  else
    let v := fromBytesLE (b.take 8)
    some (if v < 2 ^ 63 then (v : Int) else (v : Int) - 2 ^ 64)

/-! ## Hex encoding (Go `encoding/hex`) -/

/-- One hex digit character, as indexed into `hextable =
"0123456789abcdef"` by Go's `hex.EncodeToString`. -/
def hexDigitChar (n : Nat) : Char :=
  if n < 10 then Char.ofNat (48 + n) else Char.ofNat (87 + n)

/-- `hex.EncodeToString` from Go's `encoding/hex`: two lowercase hex
digits per byte, high nibble first. -/
def hexEncode (bs : Bytes) : String :=
  ⟨bs.foldr (fun b acc => hexDigitChar (b / 16) :: hexDigitChar (b % 16) :: acc) []⟩

/-- Value of one hex digit character, as accepted by Go's
`hex.DecodeString` (digits, lowercase and uppercase letters). -/
def hexCharVal (c : Char) : Option Nat :=
  if 48 ≤ c.toNat ∧ c.toNat ≤ 57 then some (c.toNat - 48)
  else if 97 ≤ c.toNat ∧ c.toNat ≤ 102 then some (c.toNat - 87)
  else if 65 ≤ c.toNat ∧ c.toNat ≤ 70 then some (c.toNat - 55)
  else none

/-- Pairwise hex decoding; `none` on an odd-length input or a non-hex
character, like `hex.DecodeString` returning an error. -/
def hexDecodeChars : List Char → Option Bytes
  | [] => some []
  | [_] => none
  | c1 :: c2 :: rest =>
    match hexCharVal c1, hexCharVal c2, hexDecodeChars rest with
    | some h, some l, some bs => some ((16 * h + l) :: bs)
    | _, _, _ => none

/-- `hex.DecodeString` from Go's `encoding/hex`. -/
def hexDecode (s : String) : Option Bytes :=
  hexDecodeChars s.data

/-! ## The drop-box store (boltdb bucket `dropboxesBucketName`)

The bucket maps 16-byte box IDs to package bytes; it is embedded as an
association list whose `storePut` removes any previous entry for the key,
so a well-formed store has at most one entry per ID. -/

/-- One boltdb bucket: box ID to package. -/
abbrev Store := List (Bytes × Bytes)

/-- `Bucket.Get`: first (only) entry for the key, `nil` (here `none`)
when absent. -/
def storeGet : Store → Bytes → Option Bytes
  | [], _ => none
  | e :: s, k => if e.1 = k then some e.2 else storeGet s k

/-- Remove every entry for a key. -/
def storeErase : Store → Bytes → Store
  | [], _ => []
  | e :: s, k => if e.1 = k then storeErase s k else e :: storeErase s k

/-- `Bucket.Put`: overwrite the value stored for the key. -/
def storePut (s : Store) (k v : Bytes) : Store :=
  (k, v) :: storeErase s k

/-- The keys of the store. -/
def storeKeys (s : Store) : List Bytes :=
  s.map Prod.fst

/-- The store holds at most one entry per box ID. -/
def storeWF (s : Store) : Prop :=
  (storeKeys s).Nodup

/-! ## `drop_boxes.go`: REST handlers

Each handler becomes a function from the request data and the current
store to the HTTP status code and the store after the request.  A
`writeOk : Bool` argument stands for the boltdb `Update` transaction
succeeding or failing; on failure boltdb rolls the transaction back, so
the store is returned unchanged. -/

/-- `pickUpPackage` from `drop_boxes.go`: read the current package inside
a `View` transaction; `Get` yields `nil` (here `[]`) for an absent key. -/
def pickUpPackage (store : Store) (boxID : Bytes) : Bytes :=
  (storeGet store boxID).getD []

/-- `parseDropBoxID` from `drop_boxes.go`: hex-decode the `box_id` path
variable and check the decoded length is exactly `dropBoxIDSize = 16`;
on failure the handler has already sent 400. -/
def parseDropBoxID (boxIDStr : String) : Option Bytes :=
  match hexDecode boxIDStr with
  | none => none
  | some boxID => if boxID.length = 16 then some boxID else none

/-- `pickUpPackageHandler` (GET /drop-boxes/\x7bbox_id\x7d): status,
response body, and the store afterwards (a `View` transaction never
changes it). -/
def pickUpPackageHandler (boxIDStr : String) (store : Store) :
    Nat × Bytes × Store :=
  match parseDropBoxID boxIDStr with
  | none => (400, [], store)
  | some boxID => (200, pickUpPackage store boxID, store)

/-- `dropPackageHandler` (PUT /drop-boxes/\x7bbox_id\x7d): parse the ID
(400 on failure), read the body (`body = none` models an `ioutil.ReadAll`
error, 400), write the store (500 when the `Update` transaction fails),
else 200.  The post-success publish does not touch the store. -/
def dropPackageHandler (boxIDStr : String) (body : Option Bytes)
    (writeOk : Bool) (store : Store) : Nat × Store :=
  match parseDropBoxID boxIDStr with
  | none => (400, store)
  | some boxID =>
    match body with
    | none => (400, store)
    | some pkg =>
      if writeOk then (200, storePut store boxID pkg) else (500, store)

/-- Insertion into the Go map `pkgs` of `sendMultiplePackagesHandler`:
assignment overwrites the value for an existing key. -/
def mapInsert (m : List (String × Bytes)) (k : String) (v : Bytes) :
    List (String × Bytes) :=
  match m with
  | [] => [(k, v)]
  | e :: rest => if e.1 = k then (k, v) :: rest else e :: mapInsert rest k v

/-- The part-reading loop of `sendMultiplePackagesHandler`: each part's
form-name must hex-decode to exactly 16 bytes; the first invalid part
aborts the whole request (`none`) before anything is written. -/
def buildPkgs (acc : List (String × Bytes)) :
    List (String × Bytes) → Option (List (String × Bytes))
  | [] => some acc
  | (name, data) :: rest =>
    match hexDecode name with
    | none => none
    | some boxID =>
      if boxID.length = 16 then buildPkgs (mapInsert acc name data) rest
      else none

/-- `sendMultiplePackagesHandler` (POST /drop-boxes/send): build the
box-to-package map, rejecting the batch with 400 on any invalid ID; then
write every entry in one `Update` transaction.  The source answers a
failed transaction with `sendBadReq`, i.e. status 400. -/
def sendMultiplePackagesHandler (parts : List (String × Bytes))
    (writeOk : Bool) (store : Store) : Nat × Store :=
  match buildPkgs [] parts with
  | none => (400, store)
  | some pkgs =>
    if writeOk then
      (200, pkgs.foldl (fun s e => storePut s ((hexDecode e.1).getD []) e.2) store)
    else (400, store)

/-! ## Request sequences over the drop-box REST surface -/

/-- One drop-box REST request. -/
inductive Op where
  | putPkg (boxIDStr : String) (body : Option Bytes) (writeOk : Bool)
  | sendPkgs (parts : List (String × Bytes)) (writeOk : Bool)
  | getPkg (boxIDStr : String)
deriving DecidableEq

/-- The store after serving one request. -/
def applyOp (op : Op) (store : Store) : Nat × Store :=
  match op with
  | .putPkg idStr body ok => dropPackageHandler idStr body ok store
  | .sendPkgs parts ok => sendMultiplePackagesHandler parts ok store
  | .getPkg idStr =>
    let r := pickUpPackageHandler idStr store
    (r.1, r.2.2)

/-- The store after serving a sequence of requests, oldest first. -/
def applyOps (ops : List Op) (store : Store) : Store :=
  ops.foldl (fun s op => (applyOp op s).2) store

/-- Whether a request successfully writes box `B`: a 200 PUT addressed to
`B`, or a 200 multipart send one of whose parts is addressed to `B`. -/
def opWritesBox (op : Op) (B : Bytes) : Bool :=
  match op with
  | .putPkg idStr body ok =>
    match parseDropBoxID idStr with
    | some b => decide (b = B) && body.isSome && ok
    | none => false
  | .sendPkgs parts ok =>
    (buildPkgs [] parts).isSome && ok &&
      parts.any (fun e => decide (hexDecode e.1 = some B))
  | .getPkg _ => false

/-- Data written for decoded box ID `B` by the transaction loop of
`sendMultiplePackagesHandler`, reading the map entries left to right:
the data of the last entry whose form-name decodes to `B`. -/
def lastKeyData : List (String × Bytes) → Bytes → Option Bytes
  | [], _ => none
  | e :: rest, B =>
    match lastKeyData rest B with
    | some d => some d
    | none => if (hexDecode e.1).getD [] = B then some e.2 else none

/-! ## `packageListener` (drop_boxes.go): the socket command loop

The reader goroutine owns `pl.subs`, keyed by the hex-encoded box ID;
WATCH and IGNORE mutate it.  The observable output of a command is the
list of frames handed to the writer goroutine through `pl.pkgs`: the
forwarder goroutine spawned by `watch` wraps each package as
`[0x01] ++ boxID ++ pkg` before sending it there. -/

/-- Deletion from a subscription map, as `delete(pl.subs, hexID)`. -/
def removeKey : List String → String → List String
  | [], _ => []
  | k :: ks, h => if k = h then removeKey ks h else k :: removeKey ks h

/-- `packageListener.watch`: reject IDs that are not 16 bytes long; skip
duplicate subscriptions; otherwise subscribe to `hexEncode boxID` and,
when the box already holds a non-empty package, deliver it at once as a
`[0x01] ++ boxID ++ pkg` frame. -/
def plWatch (subs : List String) (boxID : Bytes) (store : Store) :
    List String × List Bytes :=
  if boxID.length = 16 then
    let hexID := hexEncode boxID
    if hexID ∈ subs then (subs, [])
    else
      let tmp := pickUpPackage store boxID
      (hexID :: subs, if tmp.length > 0 then [1 :: (boxID ++ tmp)] else [])
  else (subs, [])

/-- `packageListener.ignore`: reject IDs that are not 16 bytes long; log
and skip unknown subscriptions; otherwise close the subscription reader
and delete the entry. -/
def plIgnore (subs : List String) (boxID : Bytes) : List String :=
  if boxID.length = 16 then
    let hexID := hexEncode boxID
    if hexID ∈ subs then removeKey subs hexID else subs
  else subs

/-- What `packageListener.read` receives from one `conn.ReadMessage`. -/
inductive ReadEvent where
  | frame (data : Bytes)
  | nonBinary
  | readError

/-- One iteration of the `packageListener.read` loop: the new
subscription set, the frames produced for the writer, and whether the
read loop continues (`false` starts the session shutdown).  An empty
frame is logged and skipped; opcode 0 (NOP) does nothing; 1 is WATCH; 2
is IGNORE; anything else is logged and discarded. -/
def plReadStep (subs : List String) (store : Store) :
    ReadEvent → List String × List Bytes × Bool
  | .frame [] => (subs, [], true)
  | .frame (b :: rest) =>
    if b = 0 then (subs, [], true)
    else if b = 1 then
      let r := plWatch subs rest store
      (r.1, r.2, true)
    else if b = 2 then (plIgnore subs rest, [], true)
    else (subs, [], true)
  | .nonBinary => (subs, [], false)
  | .readError => (subs, [], false)

/-! ## `socketServer` (the second socket path)

Same command surface as `packageListener`, but with a different
subscription bookkeeping (`pkgSubs : map[string]chan []byte`) and a
different cleanup story. -/

/-- `socketServer.watchBox`: identical checks to `packageListener.watch`
(length, duplicate), then subscribe, pick up any existing package
(`kvs.PickUpPackage`; a read error is only logged) and deliver it as a
`[socketCmdWatch] ++ boxID ++ pkg` frame through `ss.pkgs`. -/
def ssWatchBox (subs : List String) (boxID : Bytes) (store : Store) :
    List String × List Bytes :=
  if boxID.length = 16 then
    let hexID := hexEncode boxID
    if hexID ∈ subs then (subs, [])
    else
      let tmp := pickUpPackage store boxID
      (hexID :: subs, if tmp.length > 0 then [1 :: (boxID ++ tmp)] else [])
  else (subs, [])

/-- The channel-level state of one `socketServer` session: the watched
topics, the topics whose subscription queue has been closed by `Unsub`,
whether the session-wide `ss.pkgs` channel has been closed, and whether
the `writeConn` goroutine is still running. -/
structure SSState where
  pkgSubs : List String
  subClosed : List String
  pkgsClosed : Bool
  writerAlive : Bool
deriving DecidableEq

/-- `socketServer.ignoreBox`: for a watched box,
`dropBoxPubSub.Unsub(sub, hexID)` removes the subscription from the bus
and closes its queue, and the entry is deleted from `pkgSubs`; for an
unknown box it only logs a client error. -/
def ssIgnoreBox (s : SSState) (boxID : Bytes) : SSState :=
  let hexID := hexEncode boxID
  if hexID ∈ s.pkgSubs then
    { s with pkgSubs := removeKey s.pkgSubs hexID
             subClosed := hexID :: s.subClosed }
  else s

/-- The forwarder goroutine of `socketServer.watchBox` for `topic`, at
the moment its subscription queue has been closed: the `pkg := <-sub`
arm receives `nil`, so the goroutine closes the session-wide `ss.pkgs`
channel and returns. -/
def ssForwarderClosedSub (s : SSState) (topic : String) : SSState :=
  if topic ∈ s.subClosed then { s with pkgsClosed := true } else s

/-- `socketServer.writeConn`, selecting the `ss.pkgs` arm after that
channel has been closed: it receives `nil` and returns; a returned
writer performs no further `WriteMessage` of any kind. -/
def ssWriterStep (s : SSState) : SSState :=
  if s.pkgsClosed then { s with writerAlive := false } else s

/-! ## Session teardown -/

/-- A cleanup action a socket session can perform while shutting down. -/
inductive CleanupAction where
  | unsubBox (topic : String)
  | unsubMessages
  | closeConn
  | closePkgs
deriving DecidableEq

/-- The cleanup performed by the `packageListener` path once its reader
exits: `read` closes `pl.closed`; `stop` — spawned by `start` — then
closes every subscription reader, whose forwarder goroutines each run
`defer dropBoxPubSub.Unsub(sub, topic)`; after `waitGroup.Wait`, `stop`
closes the connection and the `pkgs` channel, which terminates `write`.
-/
def packageListenerTeardown (subs : List String) : List CleanupAction :=
  subs.map CleanupAction.unsubBox ++
    [CleanupAction.closeConn, CleanupAction.closePkgs]

/-- The cleanup performed by the `socketServer` path once its reader
exits.  `socketServer.start` spawns only `readConn` and `writeConn`: no
goroutine ever runs `socketServer.stop`, the only place that
unsubscribes `pkgSubs` and `ss.messages` from the buses and closes the
connection; the forwarders spawned by `watchBox` have no unsubscription
`defer` and return silently on `ss.closed`.  So nothing is released. -/
def socketServerTeardown (_ : List String) : List CleanupAction := []

/-! ## Socket handshake handlers -/

/-- Outcome of an upgrade request on the authenticated socket path. -/
inductive SocketResult where
  | rejected (status : Nat)
  | running (userID : Int)
deriving DecidableEq

/-- `createSocketHandler` (the authenticated socket endpoint): the access
token is read from the `Sec-Websocket-Protocol` header (`Header.Get`
yields the empty string when the header is absent); a token-verification
error answers 500 via `sendInternalErr`; user ID 0 answers 401 via
`sendInvalidAccessToken`; otherwise the connection is upgraded
(`upgradeOk` models the WebSocket upgrader succeeding — on failure it
answers 400 itself) and the session runs as that user. -/
def createSocketHandler (vat : String → Except Unit Int)
    (header : Option String) (upgradeOk : Bool) : SocketResult :=
  let token := header.getD ""
  match vat token with
  | .error _ => .rejected 500
  | .ok userID =>
    if userID = 0 then .rejected 401
    else if upgradeOk then .running userID else .rejected 400

/-- Outcome of an upgrade request on GET /drop-boxes/watch. -/
inductive WatcherResult where
  | upgraded
  | rejected (status : Nat)
deriving DecidableEq

/-- `createPackageWatcherHandler` (drop_boxes.go), serving
GET /drop-boxes/watch: it inspects no header and performs no token check
at all; whenever the WebSocket upgrade itself succeeds, the connection
is upgraded and the package listener starts. -/
def createPackageWatcherHandler (_ : Option String)
    (upgradeOk : Bool) : WatcherResult :=
  if upgradeOk then .upgraded else .rejected 400

theorem toBytesLE_length (w : Nat) : ∀ n, (toBytesLE w n).length = w := by
  induction w with
  | zero => intro n; rfl
  | succ w ih => intro n; simp [toBytesLE, ih]

theorem fromBytesLE_toBytesLE (w : Nat) :
    ∀ n, n < 2 ^ (8 * w) → fromBytesLE (toBytesLE w n) = n := by
  induction w with
  | zero =>
    intro n hn
    simp at hn
    simp [hn, toBytesLE, fromBytesLE]
  | succ w ih =>
    intro n hn
    have hdiv : n / 256 < 2 ^ (8 * w) := by
      rw [Nat.div_lt_iff_lt_mul (by norm_num : 0 < 256)]
      calc n < 2 ^ (8 * (w + 1)) := hn
        _ = 2 ^ (8 * w) * 256 := by rw [Nat.mul_succ, pow_add]; norm_num
    simp only [toBytesLE, fromBytesLE, ih (n / 256) hdiv]
    omega

/-- C10: `int64ToBytes` returns exactly 8 little-endian bytes; decoding
them with `bytesToInt64` gives back the original int64; `bytesToInt64`
panics (modelled as `none`) on inputs shorter than 8 bytes. -/
theorem int64_bytes_roundtrip :
    (∀ i : Int, -(2 : Int) ^ 63 ≤ i → i < 2 ^ 63 →
      (int64ToBytes i).length = 8 ∧ bytesToInt64 (int64ToBytes i) = some i) ∧
    (∀ b : Bytes, b.length < 8 → bytesToInt64 b = none) := by
  constructor
  · intro i h1 h2
    have hlen : (int64ToBytes i).length = 8 := toBytesLE_length 8 _
    refine ⟨hlen, ?_⟩
    have hpos : (0 : Int) < 2 ^ 64 := by positivity
    have hnn : (0 : Int) ≤ i % 2 ^ 64 := Int.emod_nonneg i (by positivity)
    have hlt : i % 2 ^ 64 < 2 ^ 64 := Int.emod_lt_of_pos i hpos
    have hmlt : (i % (2 : Int) ^ 64).toNat < 2 ^ 64 := by omega
    have hdecode :
        fromBytesLE (toBytesLE 8 ((i % (2 : Int) ^ 64).toNat)) =
          (i % (2 : Int) ^ 64).toNat :=
      fromBytesLE_toBytesLE 8 _ (by norm_num; omega)
    rw [bytesToInt64, if_neg (by omega)]
    have htake :
        List.take 8 (toBytesLE 8 ((i % (2 : Int) ^ 64).toNat)) =
          toBytesLE 8 ((i % (2 : Int) ^ 64).toNat) :=
      List.take_of_length_le (le_of_eq (toBytesLE_length 8 _))
    simp only [int64ToBytes, htake]
    rw [hdecode, Option.some_inj]
    split <;> omega
  · intro b hb
    simp [bytesToInt64, hb]

/-- Witness for C10 at concrete inputs. -/
theorem int64_bytes_roundtrip_witness :
    bytesToInt64 (int64ToBytes (-5)) = some (-5) ∧
    bytesToInt64 [0, 1, 2] = none :=
  ⟨(int64_bytes_roundtrip.1 (-5) (by decide) (by decide)).2,
   int64_bytes_roundtrip.2 [0, 1, 2] (by decide)⟩

/-! ## Store lemmas -/

theorem storeGet_put_self (s : Store) (k v : Bytes) :
    storeGet (storePut s k v) k = some v := by
  simp [storePut, storeGet]

theorem storeGet_erase_ne (s : Store) (k j : Bytes) (h : j ≠ k) :
    storeGet (storeErase s k) j = storeGet s j := by
  induction s with
  | nil => rfl
  | cons e rest ih =>
    by_cases he : e.1 = k
    · have hk : ¬ k = j := fun hh => h hh.symm
      simp [storeErase, storeGet, he, hk, ih]
    · simp only [storeErase, if_neg he, storeGet]
      by_cases hj : e.1 = j
      · simp [hj]
      · simp [hj, ih]

theorem storeGet_put_ne (s : Store) (k v j : Bytes) (h : j ≠ k) :
    storeGet (storePut s k v) j = storeGet s j := by
  have hk : ¬ k = j := fun hh => h hh.symm
  simp [storePut, storeGet, hk, storeGet_erase_ne s k j h]

theorem storeKeys_erase_sublist (s : Store) (k : Bytes) :
    (storeKeys (storeErase s k)).Sublist (storeKeys s) := by
  induction s with
  | nil => simp [storeErase, storeKeys]
  | cons e rest ih =>
    by_cases he : e.1 = k
    · simp only [storeErase, if_pos he, storeKeys, List.map_cons]
      exact ih.cons e.1
    · simp only [storeErase, if_neg he, storeKeys, List.map_cons]
      exact ih.cons₂ e.1

theorem storeKeys_erase_not_mem (s : Store) (k : Bytes) :
    k ∉ storeKeys (storeErase s k) := by
  induction s with
  | nil => simp [storeErase, storeKeys]
  | cons e rest ih =>
    by_cases he : e.1 = k
    · simpa [storeErase, if_pos he, storeKeys] using ih
    · simp only [storeErase, if_neg he, storeKeys, List.map_cons,
        List.mem_cons]
      rintro (hk | hk)
      · exact he hk.symm
      · exact ih hk

theorem storeWF_put (s : Store) (k v : Bytes) (h : storeWF s) :
    storeWF (storePut s k v) := by
  refine List.Nodup.cons (storeKeys_erase_not_mem s k) ?_
  exact (storeKeys_erase_sublist s k).nodup h

theorem storeGet_foldPut (l : List (String × Bytes)) (B : Bytes) :
    ∀ s : Store,
      storeGet (l.foldl (fun s e => storePut s ((hexDecode e.1).getD []) e.2) s) B =
        match lastKeyData l B with
        | some d => some d
        | none => storeGet s B := by
  induction l with
  | nil => intro s; rfl
  | cons e rest ih =>
    intro s
    simp only [List.foldl_cons, ih, lastKeyData]
    cases lastKeyData rest B with
    | some d => rfl
    | none =>
      by_cases hk : (hexDecode e.1).getD [] = B
      · rw [if_pos hk, hk]
        exact storeGet_put_self s B e.2
      · rw [if_neg hk]
        exact storeGet_put_ne s _ _ B fun hh => hk hh.symm

theorem storeWF_foldPut (l : List (String × Bytes)) :
    ∀ s : Store, storeWF s →
      storeWF (l.foldl (fun s e => storePut s ((hexDecode e.1).getD []) e.2) s) := by
  induction l with
  | nil => intro s h; exact h
  | cons e rest ih =>
    intro s h
    exact ih _ (storeWF_put s _ _ h)

theorem lastKeyData_none (l : List (String × Bytes)) (B : Bytes)
    (h : ∀ e ∈ l, (hexDecode e.1).getD [] ≠ B) : lastKeyData l B = none := by
  induction l with
  | nil => rfl
  | cons e rest ih =>
    have hrest := ih fun x hx => h x (List.mem_cons_of_mem e hx)
    simp only [lastKeyData, hrest, if_neg (h e (List.mem_cons_self e rest))]

theorem lastKeyData_mem (l : List (String × Bytes)) (B : Bytes) (d : Bytes)
    (h : lastKeyData l B = some d) :
    ∃ e ∈ l, (hexDecode e.1).getD [] = B ∧ e.2 = d := by
  induction l with
  | nil => simp [lastKeyData] at h
  | cons e rest ih =>
    cases hrest : lastKeyData rest B with
    | some d2 =>
      simp only [lastKeyData, hrest] at h
      obtain ⟨x, hx, hkey, hd⟩ := ih (hrest.trans h)
      exact ⟨x, List.mem_cons_of_mem e hx, hkey, hd⟩
    | none =>
      simp only [lastKeyData, hrest] at h
      by_cases hk : (hexDecode e.1).getD [] = B
      · rw [if_pos hk] at h
        exact ⟨e, List.mem_cons_self e rest, hk, Option.some_inj.mp h⟩
      · rw [if_neg hk] at h
        exact Option.noConfusion h

theorem lastKeyData_isSome (l : List (String × Bytes)) (B : Bytes)
    (e : String × Bytes) (he : e ∈ l) (hk : (hexDecode e.1).getD [] = B) :
    (lastKeyData l B).isSome := by
  induction l with
  | nil => simp at he
  | cons x rest ih =>
    rcases List.mem_cons.mp he with hex | hex
    · subst hex
      simp only [lastKeyData]
      cases lastKeyData rest B with
      | some d => rfl
      | none => simp [hk]
    · have := ih hex
      simp only [lastKeyData]
      cases hrest : lastKeyData rest B with
      | some d => rfl
      | none => rw [hrest] at this; simp at this

/-! ## `buildPkgs` lemmas -/

theorem mapInsert_mem (m : List (String × Bytes)) (k : String) (v : Bytes) :
    ∀ e ∈ mapInsert m k v, e ∈ m ∨ e = (k, v) := by
  induction m with
  | nil => intro e he; simp [mapInsert] at he; simp [he]
  | cons x rest ih =>
    intro e he
    simp only [mapInsert] at he
    by_cases hx : x.1 = k
    · rw [if_pos hx] at he
      rcases List.mem_cons.mp he with h1 | h1
      · exact Or.inr h1
      · exact Or.inl (List.mem_cons_of_mem x h1)
    · rw [if_neg hx] at he
      rcases List.mem_cons.mp he with h1 | h1
      · exact Or.inl (h1 ▸ List.mem_cons_self x rest)
      · rcases ih e h1 with h2 | h2
        · exact Or.inl (List.mem_cons_of_mem x h2)
        · exact Or.inr h2

theorem mapInsert_name_mem (m : List (String × Bytes)) (k : String) (v : Bytes) :
    ∀ n ∈ m.map Prod.fst, n ∈ (mapInsert m k v).map Prod.fst := by
  induction m with
  | nil => intro n hn; simp at hn
  | cons x rest ih =>
    intro n hn
    simp only [List.map_cons, List.mem_cons] at hn
    simp only [mapInsert]
    by_cases hx : x.1 = k
    · rw [if_pos hx]
      rcases hn with hn | hn
      · simp [hn ▸ hx]
      · simp only [List.map_cons, List.mem_cons]
        exact Or.inr hn
    · rw [if_neg hx]
      rcases hn with hn | hn
      · simp [hn]
      · simp only [List.map_cons, List.mem_cons]
        exact Or.inr (ih n hn)

theorem mapInsert_name_self (m : List (String × Bytes)) (k : String) (v : Bytes) :
    k ∈ (mapInsert m k v).map Prod.fst := by
  induction m with
  | nil => simp [mapInsert]
  | cons x rest ih =>
    simp only [mapInsert]
    by_cases hx : x.1 = k
    · simp [hx]
    · simp only [if_neg hx, List.map_cons, List.mem_cons]
      exact Or.inr ih

theorem buildPkgs_mem (parts : List (String × Bytes)) :
    ∀ acc pkgs, buildPkgs acc parts = some pkgs →
      ∀ e ∈ pkgs, e ∈ acc ∨ e ∈ parts := by
  induction parts with
  | nil =>
    intro acc pkgs h e he
    simp only [buildPkgs, Option.some_inj] at h
    exact Or.inl (h ▸ he)
  | cons p rest ih =>
    intro acc pkgs h e he
    cases hd : hexDecode p.1 with
    | none => simp only [buildPkgs, hd] at h; exact Option.noConfusion h
    | some boxID =>
      simp only [buildPkgs, hd] at h
      by_cases hlen : boxID.length = 16
      · rw [if_pos hlen] at h
        rcases ih (mapInsert acc p.1 p.2) pkgs h e he with h1 | h1
        · rcases mapInsert_mem acc p.1 p.2 e h1 with h2 | h2
          · exact Or.inl h2
          · refine Or.inr ?_
            rw [h2]
            exact List.mem_cons_self p rest
        · exact Or.inr (List.mem_cons_of_mem p h1)
      · rw [if_neg hlen] at h; exact Option.noConfusion h

theorem buildPkgs_preserves_names (parts : List (String × Bytes)) :
    ∀ acc pkgs n, buildPkgs acc parts = some pkgs →
      n ∈ acc.map Prod.fst → n ∈ pkgs.map Prod.fst := by
  induction parts with
  | nil =>
    intro acc pkgs n h hn
    simp only [buildPkgs, Option.some_inj] at h
    exact h ▸ hn
  | cons q rest ih =>
    intro acc pkgs n h hn
    cases hd : hexDecode q.1 with
    | none => simp only [buildPkgs, hd] at h; exact Option.noConfusion h
    | some boxID =>
      simp only [buildPkgs, hd] at h
      by_cases hlen : boxID.length = 16
      · rw [if_pos hlen] at h
        exact ih _ _ n h (mapInsert_name_mem acc q.1 q.2 n hn)
      · rw [if_neg hlen] at h; exact Option.noConfusion h

theorem buildPkgs_names (parts : List (String × Bytes)) :
    ∀ acc pkgs, buildPkgs acc parts = some pkgs →
      ∀ p ∈ parts, p.1 ∈ pkgs.map Prod.fst := by
  induction parts with
  | nil => intro acc pkgs h p hp; simp at hp
  | cons q rest ih =>
    intro acc pkgs h p hp
    cases hd : hexDecode q.1 with
    | none => simp only [buildPkgs, hd] at h; exact Option.noConfusion h
    | some boxID =>
      simp only [buildPkgs, hd] at h
      by_cases hlen : boxID.length = 16
      · rw [if_pos hlen] at h
        rcases List.mem_cons.mp hp with hq | hq
        · subst hq
          exact buildPkgs_preserves_names rest _ _ p.1 h
            (mapInsert_name_self acc p.1 p.2)
        · exact ih _ _ h p hq
      · rw [if_neg hlen] at h; exact Option.noConfusion h

theorem buildPkgs_valid (parts : List (String × Bytes)) :
    ∀ acc pkgs, buildPkgs acc parts = some pkgs →
      ∀ p ∈ parts, ∃ b, hexDecode p.1 = some b ∧ b.length = 16 := by
  induction parts with
  | nil => intro acc pkgs h p hp; simp at hp
  | cons q rest ih =>
    intro acc pkgs h p hp
    cases hd : hexDecode q.1 with
    | none => simp only [buildPkgs, hd] at h; exact Option.noConfusion h
    | some boxID =>
      simp only [buildPkgs, hd] at h
      by_cases hlen : boxID.length = 16
      · rw [if_pos hlen] at h
        rcases List.mem_cons.mp hp with hq | hq
        · exact ⟨boxID, hq ▸ hd, hlen⟩
        · exact ih _ _ h p hq
      · rw [if_neg hlen] at h; exact Option.noConfusion h

/-! ## Frame lemmas over request sequences -/

theorem sendFold_frame (parts pkgs : List (String × Bytes)) (store : Store)
    (B : Bytes) (hb : buildPkgs [] parts = some pkgs)
    (h : ∀ e ∈ parts, hexDecode e.1 ≠ some B) :
    storeGet
        (pkgs.foldl (fun s e => storePut s ((hexDecode e.1).getD []) e.2) store)
        B = storeGet store B := by
  rw [storeGet_foldPut]
  have hnone : lastKeyData pkgs B = none := by
    apply lastKeyData_none
    intro e he
    have hin : e ∈ parts := by
      rcases buildPkgs_mem parts [] pkgs hb e he with h1 | h1
      · simp at h1
      · exact h1
    obtain ⟨b, hd, _⟩ := buildPkgs_valid parts [] pkgs hb e hin
    rw [hd]
    intro hEq
    simp only [Option.getD_some] at hEq
    exact h e hin (hEq ▸ hd)
  rw [hnone]

theorem sendFold_written (parts pkgs : List (String × Bytes)) (store : Store)
    (B : Bytes) (hb : buildPkgs [] parts = some pkgs)
    (h : ∃ e ∈ parts, hexDecode e.1 = some B) :
    ∃ e ∈ parts, hexDecode e.1 = some B ∧
      storeGet
          (pkgs.foldl (fun s e => storePut s ((hexDecode e.1).getD []) e.2) store)
          B = some e.2 := by
  obtain ⟨e0, he0, hd0⟩ := h
  have hname : e0.1 ∈ pkgs.map Prod.fst := buildPkgs_names parts [] pkgs hb e0 he0
  obtain ⟨x, hx, hx1⟩ := List.mem_map.mp hname
  have hkeyx : (hexDecode x.1).getD [] = B := by rw [hx1, hd0]; rfl
  have hsome := lastKeyData_isSome pkgs B x hx hkeyx
  obtain ⟨d, hd⟩ := Option.isSome_iff_exists.mp hsome
  obtain ⟨y, hy, hkeyy, hy2⟩ := lastKeyData_mem pkgs B d hd
  have hyparts : y ∈ parts := by
    rcases buildPkgs_mem parts [] pkgs hb y hy with h1 | h1
    · simp at h1
    · exact h1
  obtain ⟨b, hdy, _⟩ := buildPkgs_valid parts [] pkgs hb y hyparts
  have hbB : b = B := by rw [hdy] at hkeyy; simpa using hkeyy
  refine ⟨y, hyparts, hbB ▸ hdy, ?_⟩
  rw [storeGet_foldPut, hd, hy2]

theorem applyOp_get_frame (op : Op) (s : Store) (B : Bytes)
    (h : opWritesBox op B = false) :
    storeGet (applyOp op s).2 B = storeGet s B := by
  cases op with
  | putPkg idStr body ok =>
    cases hp : parseDropBoxID idStr with
    | none => simp [applyOp, dropPackageHandler, hp]
    | some b =>
      simp only [opWritesBox, hp] at h
      cases body with
      | none => simp [applyOp, dropPackageHandler, hp]
      | some pkg =>
        cases ok with
        | false => simp [applyOp, dropPackageHandler, hp]
        | true =>
          simp only [Option.isSome_some, Bool.and_true, Bool.and_self,
            decide_eq_false_iff_not] at h
          simp only [applyOp, dropPackageHandler, hp, if_pos rfl]
          exact storeGet_put_ne s b pkg B fun hh => h (by simp [hh])
  | sendPkgs parts ok =>
    cases hb : buildPkgs [] parts with
    | none => simp [applyOp, sendMultiplePackagesHandler, hb]
    | some pkgs =>
      cases ok with
      | false => simp [applyOp, sendMultiplePackagesHandler, hb]
      | true =>
        simp only [opWritesBox, hb, Option.isSome_some, Bool.true_and,
          Bool.and_true, Bool.and_self] at h
        have hparts : ∀ e ∈ parts, hexDecode e.1 ≠ some B := by
          intro e he
          simpa using List.any_eq_false.mp h e he
        simp only [applyOp, sendMultiplePackagesHandler, hb, if_pos rfl]
        exact sendFold_frame parts pkgs s B hb hparts
  | getPkg idStr =>
    cases hp : parseDropBoxID idStr <;>
      simp [applyOp, pickUpPackageHandler, hp]

theorem applyOps_get_frame (ops : List Op) (B : Bytes)
    (h : ∀ op ∈ ops, opWritesBox op B = false) :
    ∀ s : Store, storeGet (applyOps ops s) B = storeGet s B := by
  induction ops with
  | nil => intro s; rfl
  | cons op rest ih =>
    intro s
    have h1 : storeGet (applyOp op s).2 B = storeGet s B :=
      applyOp_get_frame op s B (h op (List.mem_cons_self op rest))
    have h2 := ih (fun x hx => h x (List.mem_cons_of_mem op hx)) (applyOp op s).2
    simp only [applyOps, List.foldl_cons]
    exact h2.trans h1

theorem applyOp_WF (op : Op) (s : Store) (h : storeWF s) :
    storeWF (applyOp op s).2 := by
  cases op with
  | putPkg idStr body ok =>
    cases hp : parseDropBoxID idStr with
    | none => simpa [applyOp, dropPackageHandler, hp] using h
    | some b =>
      cases body with
      | none => simpa [applyOp, dropPackageHandler, hp] using h
      | some pkg =>
        cases ok with
        | false => simpa [applyOp, dropPackageHandler, hp] using h
        | true =>
          simp only [applyOp, dropPackageHandler, hp, if_pos rfl]
          exact storeWF_put s b pkg h
  | sendPkgs parts ok =>
    cases hb : buildPkgs [] parts with
    | none => simpa [applyOp, sendMultiplePackagesHandler, hb] using h
    | some pkgs =>
      cases ok with
      | false => simpa [applyOp, sendMultiplePackagesHandler, hb] using h
      | true =>
        simp only [applyOp, sendMultiplePackagesHandler, hb, if_pos rfl]
        exact storeWF_foldPut pkgs s h
  | getPkg idStr =>
    cases hp : parseDropBoxID idStr <;>
      simpa [applyOp, pickUpPackageHandler, hp] using h

theorem applyOps_WF (ops : List Op) :
    ∀ s : Store, storeWF s → storeWF (applyOps ops s) := by
  induction ops with
  | nil => intro s h; exact h
  | cons op rest ih =>
    intro s h
    simp only [applyOps, List.foldl_cons]
    exact ih (applyOp op s).2 (applyOp_WF op s h)

/-! ## Claim theorems -/

/-- C8: a GET or PUT on /drop-boxes/\x7bbox_id\x7d whose `box_id` is not
valid hex or does not decode to exactly 16 bytes answers 400, with the
store untouched and an empty response body chosen independently of the
store. -/
theorem invalid_box_id_rejected (idStr : String) (body : Option Bytes)
    (writeOk : Bool) (store : Store)
    (h : hexDecode idStr = none ∨
      ∃ b, hexDecode idStr = some b ∧ b.length ≠ 16) :
    pickUpPackageHandler idStr store = (400, [], store) ∧
    dropPackageHandler idStr body writeOk store = (400, store) := by
  have hp : parseDropBoxID idStr = none := by
    rcases h with h | ⟨b, hb, hlen⟩
    · simp [parseDropBoxID, h]
    · simp [parseDropBoxID, hb, hlen]
  exact ⟨by simp [pickUpPackageHandler, hp], by simp [dropPackageHandler, hp]⟩

/-- Witness for C8: the 4-character ID `00ff` decodes to 2 bytes. -/
theorem invalid_box_id_rejected_witness :
    pickUpPackageHandler "00ff" [] = (400, [], []) ∧
    dropPackageHandler "00ff" (some [1]) true [] = (400, []) :=
  invalid_box_id_rejected "00ff" (some [1]) true []
    (Or.inr ⟨[0, 255], by decide, by decide⟩)

/-- C1: after a 200 PUT of package `p` to a valid 16-byte box ID, GET on
that box answers 200 with exactly `p` and leaves the store as is, and
keeps doing so across any further requests that do not successfully write
that box; the store keeps at most one package per ID; a later successful
PUT of `q` overwrites, making `p` unobservable. -/
theorem put_get_roundtrip (idStr : String) (B p q : Bytes) (store : Store)
    (ops : List Op)
    (hparse : parseDropBoxID idStr = some B)
    (hops : ∀ op ∈ ops, opWritesBox op B = false) :
    (dropPackageHandler idStr (some p) true store).1 = 200 ∧
    pickUpPackageHandler idStr
        (applyOps ops (dropPackageHandler idStr (some p) true store).2) =
      (200, p, applyOps ops (dropPackageHandler idStr (some p) true store).2) ∧
    (storeWF store →
      storeWF (applyOps ops (dropPackageHandler idStr (some p) true store).2)) ∧
    pickUpPackage
        (dropPackageHandler idStr (some q) true
          (applyOps ops (dropPackageHandler idStr (some p) true store).2)).2
        B = q := by
  have h1 : dropPackageHandler idStr (some p) true store =
      (200, storePut store B p) := by
    simp [dropPackageHandler, hparse]
  have hget : storeGet (applyOps ops (storePut store B p)) B = some p := by
    rw [applyOps_get_frame ops B hops (storePut store B p)]
    exact storeGet_put_self store B p
  refine ⟨by rw [h1], ?_, ?_, ?_⟩
  · rw [h1]
    simp only [pickUpPackageHandler, hparse, pickUpPackage, hget,
      Option.getD_some]
  · intro hwf
    rw [h1]
    exact applyOps_WF ops (storePut store B p) (storeWF_put store B p hwf)
  · rw [h1]
    have h2 : dropPackageHandler idStr (some q) true
        (applyOps ops (storePut store B p)) =
        (200, storePut (applyOps ops (storePut store B p)) B q) := by
      simp [dropPackageHandler, hparse]
    rw [h2]
    simp [pickUpPackage, storeGet_put_self]

/-- Witness for C1 at a concrete box, package and follow-up requests. -/
theorem put_get_roundtrip_witness :
    pickUpPackageHandler "00112233445566778899aabbccddeeff"
        (applyOps [Op.getPkg "00112233445566778899aabbccddeeff"]
          (dropPackageHandler "00112233445566778899aabbccddeeff"
            (some [78, 46]) true []).2) =
      (200, [78, 46],
        applyOps [Op.getPkg "00112233445566778899aabbccddeeff"]
          (dropPackageHandler "00112233445566778899aabbccddeeff"
            (some [78, 46]) true []).2) :=
  (put_get_roundtrip "00112233445566778899aabbccddeeff"
    [0, 17, 34, 51, 68, 85, 102, 119, 136, 153, 170, 187, 204, 221, 238, 255]
    [78, 46] [88] [] [Op.getPkg "00112233445566778899aabbccddeeff"]
    (by decide) (by decide)).2.1

/-- C4: POST /drop-boxes/send is all-or-nothing: when some part's
form-name is not valid hex of exactly 16 bytes the batch answers 400 and
the store is unchanged; otherwise either nothing is written (store
returned as is, on transaction failure) or the handler answers 200 with
every part's box written and all other boxes untouched. -/
theorem send_multiple_atomic (parts : List (String × Bytes)) (writeOk : Bool)
    (store : Store) :
    ((∃ p ∈ parts, ∀ b, hexDecode p.1 = some b → b.length ≠ 16) →
      sendMultiplePackagesHandler parts writeOk store = (400, store)) ∧
    ((sendMultiplePackagesHandler parts writeOk store).2 = store ∨
      ((sendMultiplePackagesHandler parts writeOk store).1 = 200 ∧
        (∀ B : Bytes, (∀ e ∈ parts, hexDecode e.1 ≠ some B) →
          storeGet (sendMultiplePackagesHandler parts writeOk store).2 B =
            storeGet store B) ∧
        (∀ B : Bytes, (∃ e ∈ parts, hexDecode e.1 = some B) →
          ∃ e ∈ parts, hexDecode e.1 = some B ∧
            storeGet (sendMultiplePackagesHandler parts writeOk store).2 B =
              some e.2))) := by
  constructor
  · intro hbad
    cases hb : buildPkgs [] parts with
    | none => simp [sendMultiplePackagesHandler, hb]
    | some pkgs =>
      obtain ⟨p, hp, hinv⟩ := hbad
      obtain ⟨b, hd, hlen⟩ := buildPkgs_valid parts [] pkgs hb p hp
      exact absurd hlen (by simpa using hinv b hd)
  · cases hb : buildPkgs [] parts with
    | none => exact Or.inl (by simp [sendMultiplePackagesHandler, hb])
    | some pkgs =>
      cases writeOk with
      | false => exact Or.inl (by simp [sendMultiplePackagesHandler, hb])
      | true =>
        refine Or.inr ⟨by simp [sendMultiplePackagesHandler, hb], ?_, ?_⟩
        · intro B hB
          simp only [sendMultiplePackagesHandler, hb, if_pos rfl]
          exact sendFold_frame parts pkgs store B hb hB
        · intro B hB
          simp only [sendMultiplePackagesHandler, hb, if_pos rfl]
          exact sendFold_written parts pkgs store B hb hB

/-- Witness for C4: a two-part batch with one bad ID is rejected whole. -/
theorem send_multiple_atomic_witness :
    sendMultiplePackagesHandler
        [("00112233445566778899aabbccddeeff", [97]), ("zz", [98])] true
        [([1], [2])] =
      (400, [([1], [2])]) :=
  (send_multiple_atomic
      [("00112233445566778899aabbccddeeff", [97]), ("zz", [98])] true
      [([1], [2])]).1
    ⟨("zz", [98]), by decide, by decide⟩

/-- C5 counterexample: when the store write of POST /drop-boxes/send
fails, the handler calls `sendBadReq` and answers 400, not the 500 the
claim requires. -/
theorem send_store_error_not_500 :
    (sendMultiplePackagesHandler [("00112233445566778899aabbccddeeff", [78])]
        false []).1 = 400 ∧
    (sendMultiplePackagesHandler [("00112233445566778899aabbccddeeff", [78])]
        false []).1 ≠ 500 := by
  constructor <;> decide

/-- C5 amended: a failed store write makes PUT /drop-boxes/\x7bbox_id\x7d
answer 500, but makes POST /drop-boxes/send answer 400; client-input
problems alone (unreadable body, invalid box ID) answer 400. -/
theorem store_error_statuses (idStr : String) (B p : Bytes)
    (parts : List (String × Bytes)) (store : Store)
    (hB : parseDropBoxID idStr = some B)
    (hvalid : buildPkgs [] parts ≠ none) :
    dropPackageHandler idStr (some p) false store = (500, store) ∧
    sendMultiplePackagesHandler parts false store = (400, store) ∧
    (dropPackageHandler idStr none true store).1 = 400 ∧
    ∀ badStr, parseDropBoxID badStr = none →
      (dropPackageHandler badStr (some p) true store).1 = 400 := by
  refine ⟨by simp [dropPackageHandler, hB], ?_, by simp [dropPackageHandler, hB], ?_⟩
  · cases hb : buildPkgs [] parts with
    | none => exact absurd hb hvalid
    | some pkgs => simp [sendMultiplePackagesHandler, hb]
  · intro badStr hbad
    simp [dropPackageHandler, hbad]

/-- Witness for the amended C5 at concrete requests. -/
theorem store_error_statuses_witness :
    dropPackageHandler "00112233445566778899aabbccddeeff" (some [78]) false []
        = (500, []) ∧
    sendMultiplePackagesHandler [("00112233445566778899aabbccddeeff", [78])]
        false [] = (400, []) :=
  ⟨(store_error_statuses "00112233445566778899aabbccddeeff"
      [0, 17, 34, 51, 68, 85, 102, 119, 136, 153, 170, 187, 204, 221, 238, 255]
      [78] [("00112233445566778899aabbccddeeff", [78])] []
      (by decide) (by decide)).1,
   (store_error_statuses "00112233445566778899aabbccddeeff"
      [0, 17, 34, 51, 68, 85, 102, 119, 136, 153, 170, 187, 204, 221, 238, 255]
      [78] [("00112233445566778899aabbccddeeff", [78])] []
      (by decide) (by decide)).2.1⟩

/-- C6: in a running session, a WATCH for a fresh 16-byte box whose box
currently holds a non-empty package `p` subscribes the session to topic
`hexEncode B` and immediately produces the frame `0x01 ++ B ++ p` for
the writer, without waiting for a publish — in both socket code paths.
-/
theorem watch_delivers_existing_package (subs : List String) (B p : Bytes)
    (store : Store) (h16 : B.length = 16) (hnew : hexEncode B ∉ subs)
    (hpkg : storeGet store B = some p) (hne : p ≠ []) :
    plWatch subs B store = (hexEncode B :: subs, [1 :: (B ++ p)]) ∧
    hexEncode B ∈ (plWatch subs B store).1 ∧
    ssWatchBox subs B store = (hexEncode B :: subs, [1 :: (B ++ p)]) := by
  have hpick : pickUpPackage store B = p := by simp [pickUpPackage, hpkg]
  have hlen : 0 < p.length := List.length_pos.mpr hne
  have hpl : plWatch subs B store = (hexEncode B :: subs, [1 :: (B ++ p)]) := by
    simp [plWatch, h16, hnew, hpick, hlen]
  have hss : ssWatchBox subs B store = (hexEncode B :: subs, [1 :: (B ++ p)]) := by
    simp [ssWatchBox, h16, hnew, hpick, hlen]
  exact ⟨hpl, by rw [hpl]; exact List.mem_cons_self _ _, hss⟩

/-- Witness for C6: watching a box that already holds `X`. -/
theorem watch_delivers_existing_package_witness :
    plWatch [] [0, 17, 34, 51, 68, 85, 102, 119, 136, 153, 170, 187, 204,
        221, 238, 255]
      [([0, 17, 34, 51, 68, 85, 102, 119, 136, 153, 170, 187, 204, 221,
          238, 255], [88])] =
    ("00112233445566778899aabbccddeeff" ::
        ([] : List String),
      [1 :: ([0, 17, 34, 51, 68, 85, 102, 119, 136, 153, 170, 187, 204,
          221, 238, 255] ++ [88])]) := by
  have h := (watch_delivers_existing_package []
    [0, 17, 34, 51, 68, 85, 102, 119, 136, 153, 170, 187, 204, 221, 238, 255]
    [88]
    [([0, 17, 34, 51, 68, 85, 102, 119, 136, 153, 170, 187, 204, 221, 238,
        255], [88])]
    (by decide) (by decide) (by decide) (by decide)).1
  rw [h]
  rfl

/-- C7: a NOP frame, a duplicate WATCH, an IGNORE for an unwatched box,
and a frame with an unknown opcode all leave the subscription set
unchanged, emit nothing, and do not terminate the session. -/
theorem noop_frames_preserve_subs (subs : List String) (store : Store)
    (frame : Bytes)
    (hcase :
      (∃ rest, frame = 0 :: rest) ∨
      (∃ B, frame = 1 :: B ∧ hexEncode B ∈ subs) ∨
      (∃ B, frame = 2 :: B ∧ hexEncode B ∉ subs) ∨
      (∃ b rest, frame = b :: rest ∧ 3 ≤ b)) :
    plReadStep subs store (.frame frame) = (subs, [], true) := by
  rcases hcase with ⟨rest, rfl⟩ | ⟨B, rfl, hmem⟩ | ⟨B, rfl, hmem⟩ |
    ⟨b, rest, rfl, hb⟩
  · simp [plReadStep]
  · by_cases h16 : B.length = 16
    · simp [plReadStep, plWatch, h16, hmem]
    · simp [plReadStep, plWatch, h16]
  · by_cases h16 : B.length = 16
    · simp [plReadStep, plIgnore, h16, hmem]
    · simp [plReadStep, plIgnore, h16]
  · have h0 : b ≠ 0 := by omega
    have h1 : b ≠ 1 := by omega
    have h2 : b ≠ 2 := by omega
    simp [plReadStep, h0, h1, h2]

/-- Witness for C7: a NOP frame and an unknown opcode 9. -/
theorem noop_frames_preserve_subs_witness :
    plReadStep ["aa"] [] (.frame [0, 7]) = (["aa"], [], true) ∧
    plReadStep ["aa"] [] (.frame [9]) = (["aa"], [], true) :=
  ⟨noop_frames_preserve_subs ["aa"] [] [0, 7] (Or.inl ⟨[7], rfl⟩),
   noop_frames_preserve_subs ["aa"] [] [9]
     (Or.inr (Or.inr (Or.inr ⟨9, [], rfl, by decide⟩)))⟩

/-- C3 counterexample: GET /drop-boxes/watch — the drop-box watch socket
endpoint, `createPackageWatcherHandler` — performs the WebSocket upgrade
on a request with no `Sec-Websocket-Protocol` header and no token check,
instead of answering 401. -/
theorem watch_endpoint_upgrades_without_auth :
    createPackageWatcherHandler none true = WatcherResult.upgraded ∧
    WatcherResult.upgraded ≠ WatcherResult.rejected 401 := by
  exact ⟨rfl, by decide⟩

/-- C3 amended: on the authenticated socket path `createSocketHandler`,
a token resolving to user ID 0 — as the empty token of a missing
`Sec-Websocket-Protocol` header does — answers 401 with no upgrade, a
verification error answers 500, and only a token resolving to a nonzero
user reaches Running; the drop-box watch endpoint
`createPackageWatcherHandler` instead upgrades any request without an
authentication check. -/
theorem socket_handler_auth (vat : String → Except Unit Int)
    (header : Option String) (upgradeOk : Bool) :
    (vat (header.getD "") = Except.ok 0 →
      createSocketHandler vat header upgradeOk = .rejected 401) ∧
    (∀ uid, createSocketHandler vat header upgradeOk = .running uid →
      vat (header.getD "") = Except.ok uid ∧ uid ≠ 0) ∧
    (∀ e, vat (header.getD "") = Except.error e →
      createSocketHandler vat header upgradeOk = .rejected 500) ∧
    (∀ hdr, createPackageWatcherHandler hdr true = .upgraded) := by
  refine ⟨?_, ?_, ?_, fun hdr => rfl⟩
  · intro h
    simp [createSocketHandler, h]
  · intro uid h
    cases hv : vat (header.getD "") with
    | error e =>
      simp only [createSocketHandler, hv] at h
      exact SocketResult.noConfusion h
    | ok uid2 =>
      simp only [createSocketHandler, hv] at h
      by_cases h0 : uid2 = 0
      · rw [if_pos h0] at h
        exact SocketResult.noConfusion h
      · rw [if_neg h0] at h
        cases upgradeOk with
        | false =>
          simp only [Bool.false_eq_true, if_false] at h
          exact SocketResult.noConfusion h
        | true =>
          simp only [if_true] at h
          have huid : uid2 = uid := by
            injection h
          subst huid
          exact ⟨rfl, h0⟩
  · intro e h
    simp [createSocketHandler, h]

/-- Witness for the amended C3: an all-invalid token resolver. -/
theorem socket_handler_auth_witness :
    createSocketHandler (fun _ => Except.ok 0) none true =
      SocketResult.rejected 401 :=
  (socket_handler_auth (fun _ => Except.ok 0) none true).1 rfl

/-- C2: the `socketServer` path releases nothing after its connection
closes — `socketServer.stop` is never run, so neither the drop-box
subscriptions nor the user-message subscription is ever unsubscribed
from the bus — while the `packageListener` path does release every
watched box. -/
theorem socket_server_teardown_releases_nothing :
    socketServerTeardown ["00112233445566778899aabbccddeeff"] = [] ∧
    CleanupAction.unsubBox "00112233445566778899aabbccddeeff" ∉
      socketServerTeardown ["00112233445566778899aabbccddeeff"] ∧
    CleanupAction.unsubMessages ∉
      socketServerTeardown ["00112233445566778899aabbccddeeff"] ∧
    CleanupAction.unsubBox "00112233445566778899aabbccddeeff" ∈
      packageListenerTeardown ["00112233445566778899aabbccddeeff"] :=
  ⟨rfl, by simp [socketServerTeardown], by simp [socketServerTeardown],
    by simp [packageListenerTeardown]⟩

/-- C9: after an IGNORE of a currently watched box, the box's forwarder
goroutine observes its closed subscription queue and closes the
session-wide `ss.pkgs` channel, whereupon the writer goroutine returns:
no further server-to-client frame — drop-box package or user message —
is ever written on that connection. -/
theorem ignore_closes_session_writes (s : SSState) (B : Bytes)
    (h : hexEncode B ∈ s.pkgSubs) :
    (ssWriterStep (ssForwarderClosedSub (ssIgnoreBox s B)
        (hexEncode B))).pkgsClosed = true ∧
    (ssWriterStep (ssForwarderClosedSub (ssIgnoreBox s B)
        (hexEncode B))).writerAlive = false := by
  have h1 : ssIgnoreBox s B =
      { s with pkgSubs := removeKey s.pkgSubs (hexEncode B)
               subClosed := hexEncode B :: s.subClosed } := by
    simp [ssIgnoreBox, h]
  rw [h1]
  simp [ssForwarderClosedSub, ssWriterStep]

/-- Witness for C9: a session watching one box that IGNOREs it. -/
theorem ignore_closes_session_writes_witness :
    (ssWriterStep (ssForwarderClosedSub
        (ssIgnoreBox
          ⟨["00000000000000000000000000000000"], [], false, true⟩
          (List.replicate 16 0))
        (hexEncode (List.replicate 16 0)))).writerAlive = false :=
  (ignore_closes_session_writes
    ⟨["00000000000000000000000000000000"], [], false, true⟩
    (List.replicate 16 0) (by decide)).2

end Oscar
